import Mathlib

/-!
Shallow embedding of the stack state reconciliation engine of
`customer-dashboard` (`src/tools/app/src/app/state_manager.py`), together
with theorems settling the specification claims about it.

The runtime probe `StateManager._verify_container_running` is modelled in two
granularities: as a boolean oracle `running : String → Bool` (its observable
result, used by every operation that consumes it), and — for the claims about
its own error handling — as an explicit function over probe outcomes.

Python dictionaries are modelled as association lists in insertion order;
`dictLookup` is dict indexing, `dictInsert` is dict assignment (replace in
place when the key is present, append otherwise).
-/

set_option autoImplicit false

namespace CustomerDashboard

/-- Environment-dependent class constants of `StateManager`
(`PROJECT_ROOT`, `COMPOSE_PROJECT`). -/
structure Config where
  project_root : String
  compose_project : String
deriving Repr, DecidableEq

/-- One `active_stacks` entry: the dict written by `mark_stack_active` /
`_mark_stack_active_implicit`.  `explicitly_started` is `Option Bool`:
`none` models a stored dict that lacks the key (the code reads it with
`stack_info.get('explicitly_started', True)`). -/
structure StackRecord where
  started_at : String
  explicitly_started : Option Bool
  services : List String
  access_url : String
  monitoring_urls : List (String × String)
  ports : List Nat
  min_memory : String
  features : List String
  containers : List (String × String)
deriving Repr, DecidableEq

/-- The `metadata` object of the persisted document. -/
structure Metadata where
  project_root : String
  docker_compose_project : String
deriving Repr, DecidableEq

/-- The persisted state document (`.docker-state.json`). -/
structure StateDoc where
  version : String
  last_updated : String
  active_stacks : List (String × StackRecord)
  metadata : Metadata
deriving Repr, DecidableEq

/-- Python dict indexing (`d.get(k)`) on an insertion-ordered entry list. -/
def dictLookup {α : Type} : List (String × α) → String → Option α
  | [], _ => none
  | p :: l, k => if p.1 = k then some p.2 else dictLookup l k

/-- Python dict assignment `d[k] = v`: replace in place if the key exists,
append otherwise. -/
def dictInsert {α : Type} (l : List (String × α)) (k : String) (v : α) :
    List (String × α) :=
  if l.any (fun p => p.1 = k) then
    l.map (fun p => if p.1 = k then (k, v) else p)
  else
    l ++ [(k, v)]

/-! ### The runtime probe (`_verify_container_running`), lines 310–322 -/

/-- Outcome of `subprocess.run(['docker','inspect',...], capture_output=True,
text=True)` (no `check=True`, so it never raises `CalledProcessError`):
either the process completed with a return code and stdout, or spawning it
failed with an `OSError` such as `FileNotFoundError`. -/
inductive RunOutcome where
  | completed (returncode : Int) (stdout : String)
  | oserror (msg : String)
deriving Repr, DecidableEq

/-- Python's `str.strip()`: drop leading and trailing whitespace. -/
def pyStrip (s : String) : String :=
  ⟨((s.data.dropWhile Char.isWhitespace).reverse.dropWhile Char.isWhitespace).reverse⟩

/-- `StateManager._verify_container_running`, explicit about exceptions.
The `except subprocess.CalledProcessError` clause in the source cannot fire
(`subprocess.run` without `check=True` never raises it), so an `OSError`
raised while spawning the process propagates to the caller (`Except.error`).
-/
def verify_container_running_probe : RunOutcome → Except String Bool
  | .completed rc out => .ok (rc == 0 && pyStrip out == "true")
  | .oserror msg => .error msg

/-! ### Verification policy (`verify_stack_running`), lines 84–106 -/

/-- Body of `verify_stack_running` once the record has been fetched
(lines 90–106). -/
def verify_stack_info (running : String → Bool) (stack_info : StackRecord) :
    Bool :=
  let containers := stack_info.containers
  let explicitly_started := stack_info.explicitly_started.getD true
  if containers.length = 0 then false
  else if explicitly_started then
    containers.any (fun c => running c.1)
  else
    containers.all (fun c => running c.1)

/-- `StateManager.verify_stack_running` (lines 84–106); `get_stack_info`
is the `active_stacks` lookup of lines 175–179. -/
def verify_stack_running (doc : StateDoc) (running : String → Bool)
    (stack_name : String) : Bool :=
  match dictLookup doc.active_stacks stack_name with
  | none => false
  | some stack_info => verify_stack_info running stack_info

/-- C1: for a tracked record, `verify_stack_running` is the asymmetric
existential/universal policy by originator, and a record with zero containers
is never verified regardless of originator. -/
theorem C1_verify_policy (doc : StateDoc) (running : String → Bool)
    (name : String) (record : StackRecord)
    (h : dictLookup doc.active_stacks name = some record) :
    (record.explicitly_started = some true →
      (verify_stack_running doc running name = true ↔
        record.containers ≠ [] ∧ ∃ c ∈ record.containers, running c.1 = true)) ∧
    (record.explicitly_started = some false →
      (verify_stack_running doc running name = true ↔
        record.containers ≠ [] ∧ ∀ c ∈ record.containers, running c.1 = true)) ∧
    (record.containers = [] → verify_stack_running doc running name = false) := by
  refine ⟨fun hex => ?_, fun hex => ?_, fun hc => ?_⟩
  · simp [verify_stack_running, h, verify_stack_info, hex, List.length_eq_zero]
  · simp [verify_stack_running, h, verify_stack_info, hex, List.length_eq_zero]
  · simp [verify_stack_running, h, verify_stack_info, hc]

/-- Witness for C1, on the spec's own example: an Explicit record with
containers `{a: running, b: stopped}` verifies; an Implicit one does not. -/
theorem C1_witness :
    let recE : StackRecord :=
      { started_at := "t0", explicitly_started := some true, services := ["a", "b"]
        access_url := "http://localhost", monitoring_urls := [], ports := []
        min_memory := "2GB", features := []
        containers := [("customer-dashboard-a", "running"), ("customer-dashboard-b", "stopped")] }
    let doc : StateDoc :=
      { version := "1.0", last_updated := "t0", active_stacks := [("s", recE)]
        metadata := { project_root := "/app", docker_compose_project := "customer-dashboard" } }
    let run : String → Bool := fun c => c == "customer-dashboard-a"
    verify_stack_running doc run "s" = true := by
  intro recE doc run
  have h := C1_verify_policy doc run "s" recE (by rfl)
  exact (h.1 rfl).mpr (by refine ⟨by simp, ("customer-dashboard-a", "running"), by simp, rfl⟩)

/-- C9: a stored record lacking the `explicitly_started` key defaults to the
Explicit policy: it verifies exactly when it has a container and at least one
of its containers is running. -/
theorem C9_missing_flag_defaults_explicit (doc : StateDoc)
    (running : String → Bool) (name : String) (record : StackRecord)
    (h : dictLookup doc.active_stacks name = some record)
    (hflag : record.explicitly_started = none) :
    verify_stack_running doc running name = true ↔
      record.containers ≠ [] ∧ ∃ c ∈ record.containers, running c.1 = true := by
  simp [verify_stack_running, h, verify_stack_info, hflag, List.length_eq_zero]

/-- Witness for C9: a record without the flag and one running container
verifies. -/
theorem C9_witness :
    let recN : StackRecord :=
      { started_at := "t0", explicitly_started := none, services := ["a"]
        access_url := "http://localhost", monitoring_urls := [], ports := []
        min_memory := "2GB", features := []
        containers := [("customer-dashboard-a", "running")] }
    let doc : StateDoc :=
      { version := "1.0", last_updated := "t0", active_stacks := [("s", recN)]
        metadata := { project_root := "/app", docker_compose_project := "customer-dashboard" } }
    verify_stack_running doc (fun _ => true) "s" = true := by
  intro recN doc
  exact (C9_missing_flag_defaults_explicit doc (fun _ => true) "s" recN rfl rfl).mpr
    ⟨by simp, ("customer-dashboard-a", "running"), by simp, rfl⟩

/-! ### Persistence (`_save_state`), lines 277–295

The temp-file write, atomic rename and `chmod` do not affect the document's
content; an `IOError` during save is reported as a warning.  The function
below is the document as persisted by a successful save. -/

/-- `StateManager._save_state`: stamps `last_updated` and overwrites the two
`metadata` entries with the current environment's values. -/
def save_state (cfg : Config) (doc : StateDoc) (now : String) : StateDoc :=
  { doc with
      last_updated := now
      metadata :=
        { project_root := cfg.project_root
          docker_compose_project := cfg.compose_project } }

/-! ### `get_active_stacks`, lines 16–33 -/

/-- `StateManager.get_active_stacks`.  Returns the surviving records, the
document as left on disk after the call, and whether the call wrote the state
file.  Inside the loop `verify_stack_running` re-reads the state file, which
still holds `doc` because the save happens only after the loop. -/
def get_active_stacks (cfg : Config) (doc : StateDoc) (running : String → Bool)
    (now : String) : List (String × StackRecord) × StateDoc × Bool :=
  let active_stacks := doc.active_stacks
  let verified_stacks :=
    active_stacks.filter (fun p => verify_stack_running doc running p.1)
  if verified_stacks.length ≠ active_stacks.length then
    (verified_stacks, save_state cfg { doc with active_stacks := verified_stacks } now, true)
  else
    (verified_stacks, doc, false)

/-! ### `cleanup_stale_state`, lines 109–127 -/

/-- `StateManager.cleanup_stale_state`: collects the names of unverified
stacks, deletes them, and saves only when at least one was removed.  Returns
the count, the document left on disk, and whether the file was written. -/
def cleanup_stale_state (cfg : Config) (doc : StateDoc) (running : String → Bool)
    (now : String) : Nat × StateDoc × Bool :=
  let active_stacks := doc.active_stacks
  let stacks_to_remove :=
    (active_stacks.map Prod.fst).filter (fun n => !verify_stack_running doc running n)
  let stale_count := stacks_to_remove.length
  let pruned := active_stacks.filter (fun p => decide (p.1 ∉ stacks_to_remove))
  if stale_count > 0 then
    (stale_count, save_state cfg { doc with active_stacks := pruned } now, true)
  else
    (stale_count, doc, false)

/-! ### `mark_stack_inactive`, lines 75–81 -/

/-- `StateManager.mark_stack_inactive`: deletes the record if present and
saves; otherwise the call returns without touching the file. -/
def mark_stack_inactive (cfg : Config) (doc : StateDoc) (stack_name now : String) :
    StateDoc × Bool :=
  if (dictLookup doc.active_stacks stack_name).isSome then
    (save_state cfg
      { doc with active_stacks := doc.active_stacks.filter (fun p => decide (p.1 ≠ stack_name)) }
      now, true)
  else
    (doc, false)

/-! ### Pruning lemmas -/

theorem dictLookup_filter_verify (doc : StateDoc) (running : String → Bool)
    (l : List (String × StackRecord)) (k : String) :
    dictLookup (l.filter (fun p => verify_stack_running doc running p.1)) k =
      if verify_stack_running doc running k then dictLookup l k else none := by
  induction l with
  | nil => simp [dictLookup]
  | cons a l ih =>
    by_cases hq : verify_stack_running doc running a.1
    · by_cases hk : a.1 = k
      · subst hk
        simp [List.filter_cons, hq, dictLookup]
      · simp [List.filter_cons, hq, dictLookup, hk, ih]
    · by_cases hk : a.1 = k
      · subst hk
        simp [List.filter_cons, hq, dictLookup, ih]
      · simp [List.filter_cons, hq, dictLookup, hk, ih]

/-- A record that survives the pruning filter verifies again against the
pruned document: verification reads only the record itself. -/
theorem verify_filter_stable (doc : StateDoc) (running : String → Bool)
    (s : StateDoc) (n : String)
    (hs : s.active_stacks =
      doc.active_stacks.filter (fun p => verify_stack_running doc running p.1))
    (hn : verify_stack_running doc running n = true) :
    verify_stack_running s running n = true := by
  have hkey : dictLookup s.active_stacks n = dictLookup doc.active_stacks n := by
    rw [hs, dictLookup_filter_verify, if_pos hn]
  unfold verify_stack_running at hn ⊢
  rw [hkey]
  exact hn

/-- The document `get_active_stacks` leaves on disk carries exactly the
verified records. -/
theorem get_active_stacks_active (cfg : Config) (doc : StateDoc)
    (running : String → Bool) (now : String) :
    (get_active_stacks cfg doc running now).2.1.active_stacks =
      doc.active_stacks.filter (fun p => verify_stack_running doc running p.1) := by
  unfold get_active_stacks save_state
  by_cases h :
      (doc.active_stacks.filter (fun p => verify_stack_running doc running p.1)).length =
        doc.active_stacks.length
  · simp [h]
    exact (List.filter_eq_self.mpr (List.filter_length_eq_length.mp h)).symm
  · simp [h]

/-- The returned map of `get_active_stacks` is the verified sublist. -/
theorem get_active_stacks_fst (cfg : Config) (doc : StateDoc)
    (running : String → Bool) (now : String) :
    (get_active_stacks cfg doc running now).1 =
      doc.active_stacks.filter (fun p => verify_stack_running doc running p.1) := by
  unfold get_active_stacks
  by_cases h :
      (doc.active_stacks.filter (fun p => verify_stack_running doc running p.1)).length =
        doc.active_stacks.length
  · simp [h]
  · simp [h]

/-- On a document that is already pruned with respect to `running`,
`get_active_stacks` returns everything, changes nothing and does not write. -/
theorem get_active_stacks_stable (cfg : Config) (doc s : StateDoc)
    (running : String → Bool) (now : String)
    (hs : s.active_stacks =
      doc.active_stacks.filter (fun p => verify_stack_running doc running p.1)) :
    get_active_stacks cfg s running now = (s.active_stacks, s, false) := by
  have hall : ∀ p ∈ s.active_stacks, verify_stack_running s running p.1 = true := by
    intro p hp
    have hp' : verify_stack_running doc running p.1 = true := by
      rw [hs] at hp
      simpa using List.of_mem_filter hp
    exact verify_filter_stable doc running s p.1 hs hp'
  have hfilter :
      s.active_stacks.filter (fun p => verify_stack_running s running p.1) =
        s.active_stacks :=
    List.filter_eq_self.mpr (fun a ha => by simpa using hall a ha)
  unfold get_active_stacks
  simp [hfilter]

/-- C3: `get_active_stacks` is idempotent — a second call on the state the
first call left behind returns the same map, leaves the document unchanged,
and performs no write. -/
theorem C3_get_active_stacks_idempotent (cfg : Config) (doc : StateDoc)
    (running : String → Bool) (t1 t2 : String) :
    get_active_stacks cfg (get_active_stacks cfg doc running t1).2.1 running t2 =
      ((get_active_stacks cfg doc running t1).1,
       (get_active_stacks cfg doc running t1).2.1, false) := by
  have h1 := get_active_stacks_active cfg doc running t1
  have h2 := get_active_stacks_stable cfg doc
    (get_active_stacks cfg doc running t1).2.1 running t2 h1
  rw [h2, h1, get_active_stacks_fst]

theorem get_active_stacks_wrote_iff (cfg : Config) (doc : StateDoc)
    (running : String → Bool) (now : String) :
    (get_active_stacks cfg doc running now).2.2 = true ↔
      ∃ p ∈ doc.active_stacks, verify_stack_running doc running p.1 = false := by
  simp only [get_active_stacks]
  by_cases h :
      (doc.active_stacks.filter (fun p => verify_stack_running doc running p.1)).length =
        doc.active_stacks.length
  · rw [if_neg (not_ne_iff.mpr h)]
    have hall := List.filter_length_eq_length.mp h
    simp only [Bool.false_eq_true, false_iff, not_exists, not_and]
    intro p hp hv
    have h2 : verify_stack_running doc running p.1 = true := by simpa using hall p hp
    rw [hv] at h2
    simp at h2
  · rw [if_pos h]
    have hex : ¬ ∀ p ∈ doc.active_stacks,
        (fun p => verify_stack_running doc running p.1) p = true :=
      fun hall => h (List.filter_length_eq_length.mpr hall)
    push_neg at hex
    obtain ⟨p, hp, hv⟩ := hex
    simp only [true_iff]
    exact ⟨p, hp, by simpa using hv⟩

theorem get_active_stacks_nowrite_frame (cfg : Config) (doc : StateDoc)
    (running : String → Bool) (now : String)
    (h : (get_active_stacks cfg doc running now).2.2 = false) :
    (get_active_stacks cfg doc running now).2.1 = doc := by
  simp only [get_active_stacks] at h ⊢
  by_cases hc :
      (doc.active_stacks.filter (fun p => verify_stack_running doc running p.1)).length ≠
        doc.active_stacks.length
  · rw [if_pos hc] at h
    simp at h
  · rw [if_neg hc]

theorem cleanup_count_eq (cfg : Config) (doc : StateDoc) (running : String → Bool)
    (now : String) :
    (cleanup_stale_state cfg doc running now).1 =
      (doc.active_stacks.filter (fun p => !verify_stack_running doc running p.1)).length := by
  have hlen :
      ((doc.active_stacks.map Prod.fst).filter
          (fun n => !verify_stack_running doc running n)).length =
        (doc.active_stacks.filter (fun p => !verify_stack_running doc running p.1)).length := by
    rw [List.filter_map]
    simp only [List.length_map]
    rfl
  simp only [cleanup_stale_state]
  by_cases h : 0 <
      ((doc.active_stacks.map Prod.fst).filter
        (fun n => !verify_stack_running doc running n)).length
  · rw [if_pos h]
    exact hlen
  · rw [if_neg h]
    exact hlen

theorem cleanup_active_iff (cfg : Config) (doc : StateDoc) (running : String → Bool)
    (now : String) (p : String × StackRecord) :
    p ∈ (cleanup_stale_state cfg doc running now).2.1.active_stacks ↔
      p ∈ doc.active_stacks ∧ verify_stack_running doc running p.1 = true := by
  simp only [cleanup_stale_state]
  by_cases h : 0 <
      ((doc.active_stacks.map Prod.fst).filter
        (fun n => !verify_stack_running doc running n)).length
  · rw [if_pos h]
    simp only [save_state]
    constructor
    · intro hp
      rcases List.mem_filter.mp hp with ⟨hpa, hdec⟩
      have hnot : p.1 ∉ (doc.active_stacks.map Prod.fst).filter
          (fun n => !verify_stack_running doc running n) := by simpa using hdec
      refine ⟨hpa, ?_⟩
      by_contra hv
      have hvf : verify_stack_running doc running p.1 = false := by
        cases hvb : verify_stack_running doc running p.1
        · rfl
        · exact absurd hvb hv
      exact hnot (List.mem_filter.mpr
        ⟨List.mem_map_of_mem Prod.fst hpa, by simp [hvf]⟩)
    · rintro ⟨hpa, hv⟩
      refine List.mem_filter.mpr ⟨hpa, ?_⟩
      simp [List.mem_filter, hv]
  · rw [if_neg h]
    have htr0 : (doc.active_stacks.map Prod.fst).filter
        (fun n => !verify_stack_running doc running n) = [] :=
      List.length_eq_zero.mp (Nat.eq_zero_of_not_pos h)
    have hall : ∀ n ∈ doc.active_stacks.map Prod.fst,
        verify_stack_running doc running n = true := by
      intro n hn
      have := List.filter_eq_nil_iff.mp htr0 n hn
      simpa using this
    constructor
    · intro hp
      exact ⟨hp, hall p.1 (List.mem_map_of_mem Prod.fst hp)⟩
    · rintro ⟨hp, _⟩
      exact hp

theorem cleanup_wrote_iff (cfg : Config) (doc : StateDoc) (running : String → Bool)
    (now : String) :
    (cleanup_stale_state cfg doc running now).2.2 = true ↔
      0 < (cleanup_stale_state cfg doc running now).1 := by
  simp only [cleanup_stale_state]
  by_cases h : 0 <
      ((doc.active_stacks.map Prod.fst).filter
        (fun n => !verify_stack_running doc running n)).length
  · rw [if_pos h]
    simpa using h
  · rw [if_neg h]
    simpa using h

theorem cleanup_nowrite_frame (cfg : Config) (doc : StateDoc) (running : String → Bool)
    (now : String)
    (h : (cleanup_stale_state cfg doc running now).2.2 = false) :
    (cleanup_stale_state cfg doc running now).2.1 = doc := by
  simp only [cleanup_stale_state] at h ⊢
  by_cases hc : 0 <
      ((doc.active_stacks.map Prod.fst).filter
        (fun n => !verify_stack_running doc running n)).length
  · rw [if_pos hc] at h
    simp at h
  · rw [if_neg hc]

/-- C4: `get_active_stacks` keeps exactly the records that verify — in the
returned map and in the persisted document — and writes only when a record
was removed; `cleanup_stale_state` prunes the same way, returns the number
removed, and writes only when that number is positive. -/
theorem C4_pruning (cfg : Config) (doc : StateDoc) (running : String → Bool)
    (now : String) :
    (∀ p, p ∈ (get_active_stacks cfg doc running now).1 ↔
        p ∈ doc.active_stacks ∧ verify_stack_running doc running p.1 = true) ∧
    ((get_active_stacks cfg doc running now).2.1.active_stacks =
        (get_active_stacks cfg doc running now).1) ∧
    ((get_active_stacks cfg doc running now).2.2 = true ↔
        ∃ p ∈ doc.active_stacks, verify_stack_running doc running p.1 = false) ∧
    ((get_active_stacks cfg doc running now).2.2 = false →
        (get_active_stacks cfg doc running now).2.1 = doc) ∧
    ((cleanup_stale_state cfg doc running now).1 =
        (doc.active_stacks.filter
          (fun p => !verify_stack_running doc running p.1)).length) ∧
    (∀ p, p ∈ (cleanup_stale_state cfg doc running now).2.1.active_stacks ↔
        p ∈ doc.active_stacks ∧ verify_stack_running doc running p.1 = true) ∧
    ((cleanup_stale_state cfg doc running now).2.2 = true ↔
        0 < (cleanup_stale_state cfg doc running now).1) ∧
    ((cleanup_stale_state cfg doc running now).2.2 = false →
        (cleanup_stale_state cfg doc running now).2.1 = doc) := by
  refine ⟨?_, ?_, ?_, ?_, ?_, ?_, ?_, ?_⟩
  · intro p
    rw [get_active_stacks_fst]
    simp [List.mem_filter]
  · rw [get_active_stacks_active, get_active_stacks_fst]
  · exact get_active_stacks_wrote_iff cfg doc running now
  · exact get_active_stacks_nowrite_frame cfg doc running now
  · exact cleanup_count_eq cfg doc running now
  · exact fun p => cleanup_active_iff cfg doc running now p
  · exact cleanup_wrote_iff cfg doc running now
  · exact cleanup_nowrite_frame cfg doc running now

/-- Shared example configuration. -/
def cfg0 : Config := { project_root := "/app", compose_project := "customer-dashboard" }

/-- A tracked Explicit record used by concrete examples. -/
def recW : StackRecord :=
  { started_at := "t0", explicitly_started := some true, services := ["a"]
    access_url := "http://localhost", monitoring_urls := [], ports := []
    min_memory := "2GB", features := []
    containers := [("customer-dashboard-a", "running")] }

/-- A document tracking exactly the stack `w`. -/
def docW : StateDoc :=
  { version := "1.0", last_updated := "t0", active_stacks := [("w", recW)]
    metadata := { project_root := "/app", docker_compose_project := "customer-dashboard" } }

/-- A tracked record whose only container is stopped. -/
def recStale : StackRecord :=
  { started_at := "t0", explicitly_started := some true, services := ["b"]
    access_url := "http://localhost", monitoring_urls := [], ports := []
    min_memory := "2GB", features := []
    containers := [("customer-dashboard-b", "stopped")] }

/-- A document tracking one live stack `w` and one dead stack `z`. -/
def docMixed : StateDoc :=
  { version := "1.0", last_updated := "t0"
    active_stacks :=
      [("w",
        { started_at := "t0", explicitly_started := some true, services := ["a"]
          access_url := "http://localhost", monitoring_urls := [], ports := []
          min_memory := "2GB", features := []
          containers := [("customer-dashboard-a", "running")] }),
       ("z", recStale)]
    metadata := { project_root := "/app", docker_compose_project := "customer-dashboard" } }

/-- A probe observing every container as running. -/
def runAll : String → Bool := fun _ => true

/-- A probe observing only the container of service `a` as running. -/
def runOnlyA : String → Bool := fun c => c == "customer-dashboard-a"

/-- Witness for C4: on a document whose records all verify nothing is
removed, nothing is written and the document is untouched; on a mixed
document the dead record is counted and pruned. -/
theorem C4_witness :
    (∀ p, p ∈ (get_active_stacks cfg0 docW runAll "t1").1 ↔
        p ∈ docW.active_stacks ∧
          verify_stack_running docW runAll p.1 = true) ∧
    (get_active_stacks cfg0 docW runAll "t1").2.1 = docW ∧
    (cleanup_stale_state cfg0 docMixed runOnlyA "t1").1 = 1 := by
  have h := C4_pruning cfg0 docW runAll "t1"
  have h2 := C4_pruning cfg0 docMixed runOnlyA "t1"
  have hw : (get_active_stacks cfg0 docW runAll "t1").2.2 = false := by decide
  refine ⟨h.1, h.2.2.2.1 hw, ?_⟩
  rw [h2.2.2.2.2.1]
  decide

/-- C10: `mark_stack_inactive` on an untracked id leaves the document
untouched and does not write; on a tracked id it writes, deletes exactly that
record, and modifies nothing else besides the save-time stamps. -/
theorem C10_mark_inactive_frame (cfg : Config) (doc : StateDoc) (name now : String) :
    (dictLookup doc.active_stacks name = none →
        mark_stack_inactive cfg doc name now = (doc, false)) ∧
    ((dictLookup doc.active_stacks name).isSome = true →
        (mark_stack_inactive cfg doc name now).2 = true ∧
        (∀ p, p ∈ (mark_stack_inactive cfg doc name now).1.active_stacks ↔
            p ∈ doc.active_stacks ∧ p.1 ≠ name) ∧
        (mark_stack_inactive cfg doc name now).1.version = doc.version ∧
        (mark_stack_inactive cfg doc name now).1.last_updated = now ∧
        (mark_stack_inactive cfg doc name now).1.metadata =
          { project_root := cfg.project_root
            docker_compose_project := cfg.compose_project }) := by
  constructor
  · intro h
    simp [mark_stack_inactive, h]
  · intro h
    refine ⟨?_, ?_, ?_, ?_, ?_⟩
    · simp [mark_stack_inactive, h]
    · intro p
      simp [mark_stack_inactive, h, save_state, List.mem_filter]
    · simp [mark_stack_inactive, h, save_state]
    · simp [mark_stack_inactive, h, save_state]
    · simp [mark_stack_inactive, h, save_state]

/-- Witness for C10: an absent id is a silent no-op; deleting the present id
writes and keeps the other fields. -/
theorem C10_witness :
    mark_stack_inactive cfg0 docW "missing" "t1" = (docW, false) ∧
    (mark_stack_inactive cfg0 docW "w" "t1").2 = true ∧
    (mark_stack_inactive cfg0 docW "w" "t1").1.version = docW.version ∧
    (mark_stack_inactive cfg0 docW "w" "t1").1.last_updated = "t1" := by
  have h1 := C10_mark_inactive_frame cfg0 docW "missing" "t1"
  have h2 := C10_mark_inactive_frame cfg0 docW "w" "t1"
  exact ⟨h1.1 (by decide), (h2.2 (by decide)).1, (h2.2 (by decide)).2.2.1,
    (h2.2 (by decide)).2.2.2.1⟩

/-! ### `_load_state` (lines 253–274) and `_create_empty_state` (lines 297–308) -/

/-- Parsed top-level JSON object of a state file; `none` fields model missing
keys (the code inserts defaults for `version`, `active_stacks` and
`metadata`).  A missing `last_updated` is modelled as the empty string; no
claim depends on it. -/
structure RawDoc where
  version : Option String
  last_updated : Option String
  active_stacks : Option (List (String × StackRecord))
  metadata : Option Metadata
deriving Repr, DecidableEq

/-- Content of the state file as `_load_state` can encounter it.
`nonObjectJson` is a file whose bytes are valid JSON with a non-object top
level, e.g. `3` or `[]`. -/
inductive FileState where
  | absent
  | invalidJson (bytes : String)
  | nonObjectJson (bytes : String)
  | objectJson (raw : RawDoc)
deriving Repr, DecidableEq

/-- Filesystem effect of a `_load_state` call: nothing, or the corrupt file
renamed to the `.json.backup` name with its bytes preserved. -/
inductive LoadEffect where
  | noEffect
  | backedUp (bytes : String)
deriving Repr, DecidableEq

/-- `StateManager._create_empty_state`. -/
def create_empty_state (cfg : Config) (now : String) : StateDoc :=
  { version := "1.0"
    last_updated := now
    active_stacks := []
    metadata :=
      { project_root := cfg.project_root
        docker_compose_project := cfg.compose_project } }

/-- The key-defaulting of lines 261–267.  For a missing `metadata` key the
code inserts an empty dict, modelled here with empty-string fields; no claim
depends on that branch. -/
def ensure_required_keys (raw : RawDoc) : StateDoc :=
  { version := raw.version.getD "1.0"
    last_updated := raw.last_updated.getD ""
    active_stacks := raw.active_stacks.getD []
    metadata := raw.metadata.getD { project_root := "", docker_compose_project := "" } }

/-- `StateManager._load_state`.  `Except.error` models an uncaught Python
exception: on a top-level non-object value the membership test or item
assignment of lines 262–267 raises `TypeError`, which the
`except (json.JSONDecodeError, IOError)` clause does not catch, so no backup
is made and the caller sees the exception. -/
def load_state (cfg : Config) (now : String) (fs : FileState) :
    Except String (StateDoc × LoadEffect) :=
  match fs with
  | .absent => .ok (create_empty_state cfg now, .noEffect)
  | .invalidJson bytes => .ok (create_empty_state cfg now, .backedUp bytes)
  | .nonObjectJson _ => .error "TypeError"
  | .objectJson raw => .ok (ensure_required_keys raw, .noEffect)

/-- `get_active_stacks` reading its document from the state file: the
composition the spec's corruption-recovery scenario exercises. -/
def get_active_stacks_from_file (cfg : Config) (fs : FileState)
    (running : String → Bool) (now : String) :
    Except String (List (String × StackRecord)) :=
  (load_state cfg now fs).map (fun p => (get_active_stacks cfg p.1 running now).1)

/-- C6: the documented recovery paths hold — an absent file and an
unparseable file both yield a fresh empty document, the unparseable file is
backed up with its original bytes, and `get_active_stacks` then returns the
empty map — but `load` is not exception-free for every file content: bytes
that parse to a non-object JSON value (the file `3`) raise an uncaught
`TypeError`. -/
theorem C6_load_recovery (cfg : Config) (now bytes : String)
    (running : String → Bool) :
    load_state cfg now .absent = .ok (create_empty_state cfg now, .noEffect) ∧
    load_state cfg now (.invalidJson bytes) =
      .ok (create_empty_state cfg now, .backedUp bytes) ∧
    get_active_stacks_from_file cfg (.invalidJson bytes) running now = .ok [] ∧
    load_state cfg now (.nonObjectJson "3") = .error "TypeError" :=
  ⟨rfl, rfl, rfl, rfl⟩

/-! ### `save(load())` round trips (C7) -/

/-- The raw object a well-formed persisted document parses back to. -/
def rawOfDoc (d : StateDoc) : RawDoc :=
  { version := some d.version
    last_updated := some d.last_updated
    active_stacks := some d.active_stacks
    metadata := some d.metadata }

/-- One `save(load())` round trip over the state file. -/
def save_after_load (cfg : Config) (d : StateDoc) (now : String) :
    Except String StateDoc :=
  (load_state cfg now (.objectJson (rawOfDoc d))).map (fun p => save_state cfg p.1 now)

/-- A well-formed document whose recorded project root differs from the
current environment's. -/
def docForeign : StateDoc :=
  { version := "1.0", last_updated := "2024-01-01T00:00:00"
    active_stacks := []
    metadata := { project_root := "/elsewhere", docker_compose_project := "customer-dashboard" } }

/-- C7 counterexample: one `save(load())` round trip on a well-formed
document also rewrites `metadata.project_root` (to the environment's value),
so `last_updated` is not the only field that changes. -/
theorem C7_counterexample :
    save_after_load cfg0 docForeign "2024-01-02T00:00:00" =
      .ok { docForeign with
              last_updated := "2024-01-02T00:00:00"
              metadata := { project_root := "/app", docker_compose_project := "customer-dashboard" } } ∧
    ({ project_root := "/app", docker_compose_project := "customer-dashboard" } : Metadata) ≠
      docForeign.metadata :=
  ⟨rfl, by decide⟩

/-- C7 amended: `save(load())` changes only `last_updated` and the two
metadata stamps, which are rewritten to the environment's values; `version`
and `active_stacks` are stable, and once the metadata matches the
environment — in particular from the second round trip on — only
`last_updated` changes. -/
theorem C7_roundtrip_stable (cfg : Config) (d : StateDoc) (t t2 : String) :
    save_after_load cfg d t =
      .ok { d with
              last_updated := t
              metadata := { project_root := cfg.project_root
                            docker_compose_project := cfg.compose_project } } ∧
    save_after_load cfg
        { d with
            last_updated := t
            metadata := { project_root := cfg.project_root
                          docker_compose_project := cfg.compose_project } } t2 =
      .ok { d with
              last_updated := t2
              metadata := { project_root := cfg.project_root
                            docker_compose_project := cfg.compose_project } } :=
  ⟨rfl, rfl⟩

/-- C8: a completed `docker inspect` maps to its boolean result — nonzero
exit status or non-`true` stdout give `false` — but a probe whose process
could not be spawned (an `OSError` such as `FileNotFoundError` when the
docker binary is absent) propagates instead of returning false: the only
handler, `except subprocess.CalledProcessError`, can never fire because
`subprocess.run` is invoked without `check=True`. -/
theorem C8_probe_failure (out : String) :
    verify_container_running_probe (.completed 0 "true\n") = .ok true ∧
    verify_container_running_probe (.completed 0 "false") = .ok false ∧
    verify_container_running_probe (.completed 1 out) = .ok false ∧
    verify_container_running_probe (.oserror "FileNotFoundError: docker") =
      .error "FileNotFoundError: docker" :=
  ⟨rfl, rfl, rfl, rfl⟩

/-! ### `rediscover_running_stacks` (lines 358–423) and
`_mark_stack_active_implicit` (lines 425–462) -/

/-- A stack definition as returned by `StackConfig.get_all_stacks`;
rediscovery reads only its `id` and `services` entries. -/
structure StackDef where
  id : String
  services : List String
deriving Repr, DecidableEq

/-- The `StackConfig` metadata consulted when writing a record; `none`
models the `except Exception` fallback of lines 433–442. -/
structure CatalogInfo where
  access_url : String
  monitoring_urls : List (String × String)
  ports : List Nat
  min_memory : String
  features : List String
deriving Repr, DecidableEq

/-- The fallback defaults of lines 438–442 together with the
`requirements.get` defaults of lines 455–457. -/
def defaultCatalogInfo : CatalogInfo :=
  { access_url := "http://localhost", monitoring_urls := [], ports := []
    min_memory := "2GB", features := [] }

/-- `StateManager._get_container_names_for_stack` (lines 324–332). -/
def get_container_names_for_stack (cfg : Config) (running : String → Bool)
    (services : List String) : List (String × String) :=
  services.foldl
    (fun containers service =>
      let container_name := cfg.compose_project ++ "-" ++ service
      dictInsert containers container_name
        (if running container_name then "running" else "stopped"))
    []

/-- The record dict written by `_mark_stack_active_implicit`
(lines 447–460). -/
def implicitRecord (cfg : Config) (catalog : String → Option CatalogInfo)
    (running : String → Bool) (stack_name : String) (services : List String)
    (now : String) : StackRecord :=
  let info := (catalog stack_name).getD defaultCatalogInfo
  { started_at := now
    explicitly_started := some false
    services := services
    access_url := info.access_url
    monitoring_urls := info.monitoring_urls
    ports := info.ports
    min_memory := info.min_memory
    features := info.features
    containers := get_container_names_for_stack cfg running services }

/-- `StateManager._mark_stack_active_implicit`: writes an Implicit record
(`explicitly_started = False`) for the stack, then saves. -/
def mark_stack_active_implicit (cfg : Config) (catalog : String → Option CatalogInfo)
    (running : String → Bool) (doc : StateDoc) (stack_name : String)
    (services : List String) (now : String) : StateDoc :=
  save_state cfg
    { doc with
        active_stacks := dictInsert doc.active_stacks stack_name
          (implicitRecord cfg catalog running stack_name services now) } now

/-- A rediscovery candidate, as built on line 405: stack id, deduplicated
service set (`set(stack_info['services'])`, kept in first-occurrence order as
a determinisation of Python's unordered set), and its size. -/
abbrev Candidate := String × List String × Nat

/-- `set.issubset` over the list model. -/
def subsetOf (xs ys : List String) : Bool := xs.all (fun x => ys.contains x)

/-- Nonempty `set.intersection` over the list model. -/
def intersects (xs ys : List String) : Bool := xs.any (fun x => ys.contains x)

/-- Lines 397–405: the definitions whose full service set is running. -/
def complete_matches (all_stacks : List StackDef) (services_running : List String) :
    List Candidate :=
  (all_stacks.filter (fun s => subsetOf s.services.dedup services_running)).map
    (fun s => (s.id, s.services.dedup, s.services.dedup.length))

/-- Line 408: Python's stable sort by descending service count.  Insertion
sort with the non-strict `≥` on the count is stable in the same way, so it
computes the same list. -/
def sortByCountDesc (l : List Candidate) : List Candidate :=
  l.insertionSort (fun x y => x.2.2 ≥ y.2.2)

/-- The greedy selection of lines 411–418, as the accepted sublist. -/
def greedyAccepted : List Candidate → List String → List Candidate
  | [], _ => []
  | c :: rest, used =>
    if intersects c.2.1 used then greedyAccepted rest used
    else c :: greedyAccepted rest (used ++ c.2.1)

/-- The loop of lines 411–418: accept candidates whose services do not
overlap the already claimed ones, writing each accepted candidate as an
Implicit record. -/
def rediscoverLoop (cfg : Config) (catalog : String → Option CatalogInfo)
    (running : String → Bool) (now : String) :
    List Candidate → List String → Nat → StateDoc → Nat × StateDoc
  | [], _, count, doc => (count, doc)
  | c :: rest, used, count, doc =>
    if intersects c.2.1 used then
      rediscoverLoop cfg catalog running now rest used count doc
    else
      rediscoverLoop cfg catalog running now rest (used ++ c.2.1) (count + 1)
        (mark_stack_active_implicit cfg catalog running doc c.1 c.2.1 now)

/-- `StateManager.rediscover_running_stacks`, starting from the set of
running service names extracted from the probe output (a probe failure is
swallowed by the catch-all handler and yields count 0 with no writes, the
same result as an empty set here).  The `if services_running:` guard of
line 393 makes an empty set skip discovery entirely. -/
def rediscover_running_stacks (cfg : Config) (catalog : String → Option CatalogInfo)
    (running : String → Bool) (doc : StateDoc) (all_stacks : List StackDef)
    (services_running : List String) (now : String) : Nat × StateDoc :=
  if services_running.isEmpty then (0, doc)
  else
    rediscoverLoop cfg catalog running now
      (sortByCountDesc (complete_matches all_stacks services_running)) [] 0 doc

/-! ### Greedy-selection lemmas -/

theorem intersects_eq_false_iff (xs ys : List String) :
    intersects xs ys = false ↔ ∀ s ∈ xs, s ∉ ys := by
  simp [intersects]

theorem rediscoverLoop_eq (cfg : Config) (catalog : String → Option CatalogInfo)
    (running : String → Bool) (now : String) (l : List Candidate)
    (used : List String) (count : Nat) (doc : StateDoc) :
    rediscoverLoop cfg catalog running now l used count doc =
      (count + (greedyAccepted l used).length,
       (greedyAccepted l used).foldl
         (fun d c => mark_stack_active_implicit cfg catalog running d c.1 c.2.1 now) doc) := by
  induction l generalizing used count doc with
  | nil => simp [rediscoverLoop, greedyAccepted]
  | cons c rest ih =>
    by_cases h : intersects c.2.1 used = true
    · simp [rediscoverLoop, greedyAccepted, h, ih]
    · simp only [rediscoverLoop, greedyAccepted, h, Bool.false_eq_true, if_false, ih,
        List.length_cons, List.foldl_cons]
      simp only [Prod.mk.injEq]
      exact ⟨by omega, trivial⟩

theorem greedyAccepted_subset (l : List Candidate) (used : List String) :
    ∀ c ∈ greedyAccepted l used, c ∈ l := by
  induction l generalizing used with
  | nil => simp [greedyAccepted]
  | cons a rest ih =>
    intro c hc
    by_cases h : intersects a.2.1 used = true
    · simp only [greedyAccepted, h, if_true] at hc
      exact List.mem_cons_of_mem a (ih used c hc)
    · simp only [greedyAccepted, h, Bool.false_eq_true, if_false] at hc
      rcases List.mem_cons.mp hc with rfl | hc'
      · exact List.mem_cons_self _ _
      · exact List.mem_cons_of_mem _ (ih _ c hc')

theorem greedyAccepted_not_used (l : List Candidate) (used : List String) :
    ∀ c ∈ greedyAccepted l used, intersects c.2.1 used = false := by
  induction l generalizing used with
  | nil => simp [greedyAccepted]
  | cons a rest ih =>
    intro c hc
    by_cases h : intersects a.2.1 used = true
    · simp only [greedyAccepted, h, if_true] at hc
      exact ih used c hc
    · simp only [greedyAccepted, h, Bool.false_eq_true, if_false] at hc
      rcases List.mem_cons.mp hc with rfl | hc'
      · exact Bool.not_eq_true _ ▸ (Bool.eq_false_iff.mpr h)
      · have h2 := ih (used ++ a.2.1) c hc'
        rw [intersects_eq_false_iff] at h2 ⊢
        intro s hs hsu
        exact h2 s hs (List.mem_append_left _ hsu)

theorem greedyAccepted_pairwise_disjoint (l : List Candidate) (used : List String) :
    (greedyAccepted l used).Pairwise (fun c d => ∀ s ∈ c.2.1, s ∉ d.2.1) := by
  induction l generalizing used with
  | nil => simp [greedyAccepted]
  | cons a rest ih =>
    by_cases h : intersects a.2.1 used = true
    · simpa only [greedyAccepted, h, if_true] using ih used
    · simp only [greedyAccepted, h, Bool.false_eq_true, if_false]
      refine List.Pairwise.cons ?_ (ih (used ++ a.2.1))
      intro d hd s hs hsd
      have hnd := greedyAccepted_not_used rest (used ++ a.2.1) d hd
      rw [intersects_eq_false_iff] at hnd
      exact hnd s hsd (List.mem_append_right _ hs)

/-! ### Lookup after dict assignment -/

theorem dictLookup_map_replace_self {α : Type} (l : List (String × α)) (k : String)
    (v : α) (h : ∃ p ∈ l, p.1 = k) :
    dictLookup (l.map (fun p => if p.1 = k then (k, v) else p)) k = some v := by
  induction l with
  | nil => simp at h
  | cons a t ih =>
    by_cases ha : a.1 = k
    · simp [dictLookup, ha]
    · have h' : ∃ p ∈ t, p.1 = k := by
        rcases h with ⟨p, hp, hpk⟩
        rcases List.mem_cons.mp hp with rfl | hpt
        · exact absurd hpk ha
        · exact ⟨p, hpt, hpk⟩
      simp [dictLookup, ha, ih h']

theorem dictLookup_map_replace_ne {α : Type} (l : List (String × α)) (k : String)
    (v : α) (k' : String) (hne : k' ≠ k) :
    dictLookup (l.map (fun p => if p.1 = k then (k, v) else p)) k' = dictLookup l k' := by
  induction l with
  | nil => simp [dictLookup]
  | cons a t ih =>
    by_cases ha : a.1 = k
    · simp [dictLookup, ha, Ne.symm hne, ih]
    · by_cases hak : a.1 = k'
      · simp [dictLookup, ha, hak, hne]
      · simp [dictLookup, ha, hak, ih]

theorem dictLookup_append_single_self {α : Type} (l : List (String × α)) (k : String)
    (v : α) (h : ∀ p ∈ l, p.1 ≠ k) :
    dictLookup (l ++ [(k, v)]) k = some v := by
  induction l with
  | nil => simp [dictLookup]
  | cons a t ih =>
    have ha := h a (List.mem_cons_self _ _)
    rw [List.cons_append]
    simp only [dictLookup, ha, if_false]
    exact ih fun p hp => h p (List.mem_cons_of_mem _ hp)

theorem dictLookup_append_single_ne {α : Type} (l : List (String × α)) (k : String)
    (v : α) (k' : String) (hne : k' ≠ k) :
    dictLookup (l ++ [(k, v)]) k' = dictLookup l k' := by
  induction l with
  | nil => simp [dictLookup, Ne.symm hne]
  | cons a t ih =>
    by_cases hak : a.1 = k'
    · simp [dictLookup, hak]
    · simp [dictLookup, hak, ih]

theorem dictLookup_dictInsert {α : Type} (l : List (String × α)) (k : String) (v : α)
    (k' : String) :
    dictLookup (dictInsert l k v) k' = if k' = k then some v else dictLookup l k' := by
  by_cases hk : k' = k
  · subst hk
    rw [if_pos rfl]
    by_cases hany : l.any (fun p => decide (p.1 = k')) = true
    · rw [dictInsert, if_pos hany]
      refine dictLookup_map_replace_self l k' v ?_
      simpa using hany
    · rw [dictInsert, if_neg hany]
      refine dictLookup_append_single_self l k' v ?_
      intro p hp
      simp only [List.any_eq_true, decide_eq_true_eq] at hany
      push_neg at hany
      exact hany p hp
  · rw [if_neg hk]
    by_cases hany : l.any (fun p => decide (p.1 = k)) = true
    · rw [dictInsert, if_pos hany]
      exact dictLookup_map_replace_ne l k v k' hk
    · rw [dictInsert, if_neg hany]
      exact dictLookup_append_single_ne l k v k' hk

/-- Lookup in the document `_mark_stack_active_implicit` leaves behind. -/
theorem mark_implicit_lookup (cfg : Config) (catalog : String → Option CatalogInfo)
    (running : String → Bool) (doc : StateDoc) (stack_name : String)
    (services : List String) (now : String) (k : String) :
    dictLookup (mark_stack_active_implicit cfg catalog running doc stack_name
        services now).active_stacks k =
      if k = stack_name then
        some (implicitRecord cfg catalog running stack_name services now)
      else dictLookup doc.active_stacks k :=
  dictLookup_dictInsert doc.active_stacks stack_name
    (implicitRecord cfg catalog running stack_name services now) k

/-- After folding the accepted candidates through
`_mark_stack_active_implicit`, every accepted id — and every id that already
held an Implicit record — holds an Implicit record. -/
theorem foldl_marks_implicit (cfg : Config) (catalog : String → Option CatalogInfo)
    (running : String → Bool) (now : String) (A : List Candidate) (doc : StateDoc)
    (k : String)
    (h : (∃ c ∈ A, c.1 = k) ∨
      ∃ r, dictLookup doc.active_stacks k = some r ∧ r.explicitly_started = some false) :
    ∃ r,
      dictLookup
          (A.foldl
            (fun d c => mark_stack_active_implicit cfg catalog running d c.1 c.2.1 now)
            doc).active_stacks k = some r ∧
        r.explicitly_started = some false := by
  induction A generalizing doc with
  | nil =>
    rcases h with ⟨c, hc, _⟩ | h
    · simp at hc
    · simpa using h
  | cons a rest ih =>
    rw [List.foldl_cons]
    apply ih
    rcases h with ⟨c, hc, hck⟩ | ⟨r, hr, hf⟩
    · rcases List.mem_cons.mp hc with rfl | hc'
      · right
        refine ⟨implicitRecord cfg catalog running c.1 c.2.1 now, ?_, rfl⟩
        rw [mark_implicit_lookup, if_pos hck.symm]
      · left
        exact ⟨c, hc', hck⟩
    · right
      by_cases hk : k = a.1
      · exact ⟨implicitRecord cfg catalog running a.1 a.2.1 now,
          by rw [mark_implicit_lookup, if_pos hk], rfl⟩
      · exact ⟨r, by rw [mark_implicit_lookup, if_neg hk]; exact hr, hf⟩

theorem sortByCountDesc_sorted (l : List Candidate) :
    List.Sorted (fun x y : Candidate => x.2.2 ≥ y.2.2) (sortByCountDesc l) := by
  haveI : IsTotal Candidate (fun x y => x.2.2 ≥ y.2.2) :=
    ⟨fun a b => Nat.le_total b.2.2 a.2.2⟩
  haveI : IsTrans Candidate (fun x y => x.2.2 ≥ y.2.2) :=
    ⟨fun a b c hab hbc => Nat.le_trans hbc hab⟩
  exact List.sorted_insertionSort _ l

theorem subsetOf_eq_true_iff (xs ys : List String) :
    subsetOf xs ys = true ↔ ∀ s ∈ xs, s ∈ ys := by
  simp [subsetOf]

theorem complete_matches_mem (all_stacks : List StackDef)
    (services_running : List String) :
    ∀ c ∈ complete_matches all_stacks services_running,
      (∀ s ∈ c.2.1, s ∈ services_running) ∧
      ∃ d ∈ all_stacks, c = (d.id, d.services.dedup, d.services.dedup.length) := by
  intro c hc
  simp only [complete_matches, List.mem_map, List.mem_filter] at hc
  rcases hc with ⟨d, ⟨hd, hsub⟩, rfl⟩
  exact ⟨(subsetOf_eq_true_iff _ _).mp hsub, d, hd, rfl⟩

theorem complete_matches_complete (all_stacks : List StackDef)
    (services_running : List String) :
    ∀ d ∈ all_stacks, (∀ s ∈ d.services.dedup, s ∈ services_running) →
      (d.id, d.services.dedup, d.services.dedup.length) ∈
        complete_matches all_stacks services_running := by
  intro d hd hsub
  simp only [complete_matches, List.mem_map, List.mem_filter]
  exact ⟨d, ⟨hd, (subsetOf_eq_true_iff _ _).mpr hsub⟩, rfl⟩

/-- A definition with an empty service set (`get_all_stacks` yields one for a
stack file without a `services` key). -/
def stackS0 : StackDef := { id := "S0", services := [] }

/-- The spec's rediscovery example definitions. -/
def stackS1 : StackDef := { id := "S1", services := ["a", "b"] }

def stackS2 : StackDef := { id := "S2", services := ["a", "b", "c", "d"] }

/-- A freshly initialised document, the starting state of the examples. -/
def docEmpty : StateDoc := create_empty_state cfg0 "t0"

/-- C2 counterexample: with no services running at all, the claimed greedy
selection over the complete matches would accept a definition with an empty
service set (the empty set is a subset of the empty running set) and create
one record, but the `if services_running:` guard of line 393 makes the code
return 0 and write nothing. -/
theorem C2_counterexample :
    rediscover_running_stacks cfg0 (fun _ => none) (fun _ => true) docEmpty
        [stackS0] [] "t1" = (0, docEmpty) ∧
    (greedyAccepted (sortByCountDesc (complete_matches [stackS0] [])) []).length = 1 :=
  ⟨rfl, rfl⟩

/-- C2 (amended): provided at least one service is running, `rediscover`
considers exactly the definitions whose full service set is a subset of the
running services, sorts those complete matches by descending service count,
greedily accepts a candidate only if none of its services was already
claimed, writes each accepted candidate as an Implicit record, and returns
the number accepted; with no running services it returns 0 and creates no
records. -/
theorem C2_rediscover_greedy (cfg : Config) (catalog : String → Option CatalogInfo)
    (running : String → Bool) (doc : StateDoc) (all_stacks : List StackDef)
    (services_running : List String) (now : String)
    (hne : services_running ≠ []) :
    (rediscover_running_stacks cfg catalog running doc all_stacks
        services_running now).1 =
      (greedyAccepted (sortByCountDesc (complete_matches all_stacks services_running))
        []).length ∧
    (sortByCountDesc (complete_matches all_stacks services_running)).Perm
      (complete_matches all_stacks services_running) ∧
    List.Sorted (fun x y : Candidate => x.2.2 ≥ y.2.2)
      (sortByCountDesc (complete_matches all_stacks services_running)) ∧
    (∀ c ∈ complete_matches all_stacks services_running,
      (∀ s ∈ c.2.1, s ∈ services_running) ∧
      ∃ d ∈ all_stacks, c = (d.id, d.services.dedup, d.services.dedup.length)) ∧
    (∀ d ∈ all_stacks, (∀ s ∈ d.services.dedup, s ∈ services_running) →
      (d.id, d.services.dedup, d.services.dedup.length) ∈
        complete_matches all_stacks services_running) ∧
    (∀ c ∈ greedyAccepted
        (sortByCountDesc (complete_matches all_stacks services_running)) [],
      c ∈ complete_matches all_stacks services_running) ∧
    (greedyAccepted (sortByCountDesc (complete_matches all_stacks services_running))
        []).Pairwise (fun c d => ∀ s ∈ c.2.1, s ∉ d.2.1) ∧
    (∀ c ∈ greedyAccepted
        (sortByCountDesc (complete_matches all_stacks services_running)) [],
      ∃ r,
        dictLookup
            (rediscover_running_stacks cfg catalog running doc all_stacks
              services_running now).2.active_stacks c.1 = some r ∧
          r.explicitly_started = some false) := by
  have hie : services_running.isEmpty = false := by
    cases services_running with
    | nil => exact absurd rfl hne
    | cons a t => rfl
  have hred :
      rediscover_running_stacks cfg catalog running doc all_stacks
          services_running now =
        rediscoverLoop cfg catalog running now
          (sortByCountDesc (complete_matches all_stacks services_running)) [] 0 doc := by
    rw [rediscover_running_stacks, hie]
    simp
  rw [hred, rediscoverLoop_eq]
  refine ⟨by simp, ?_, sortByCountDesc_sorted _, complete_matches_mem _ _,
    complete_matches_complete _ _, ?_, greedyAccepted_pairwise_disjoint _ _, ?_⟩
  · exact List.perm_insertionSort _ _
  · intro c hc
    have hmem := greedyAccepted_subset _ _ c hc
    simpa [sortByCountDesc] using hmem
  · intro c hc
    apply foldl_marks_implicit
    left
    exact ⟨c, hc, rfl⟩

/-- Witness for C2 on the spec's rediscovery example: running services
`{a,b,c,d}` with definitions `S1 = {a,b}` and `S2 = {a,b,c,d}` yield exactly
one created record, the Implicit record for `S2`, and none for `S1`. -/
theorem C2_witness :
    (rediscover_running_stacks cfg0 (fun _ => none) (fun _ => true) docEmpty
        [stackS1, stackS2] ["a", "b", "c", "d"] "t1").1 = 1 ∧
    (∃ r,
      dictLookup
          (rediscover_running_stacks cfg0 (fun _ => none) (fun _ => true) docEmpty
            [stackS1, stackS2] ["a", "b", "c", "d"] "t1").2.active_stacks "S2" =
          some r ∧
        r.explicitly_started = some false) ∧
    dictLookup
        (rediscover_running_stacks cfg0 (fun _ => none) (fun _ => true) docEmpty
          [stackS1, stackS2] ["a", "b", "c", "d"] "t1").2.active_stacks "S1" = none := by
  have h := C2_rediscover_greedy cfg0 (fun _ => none) (fun _ => true) docEmpty
    [stackS1, stackS2] ["a", "b", "c", "d"] "t1" (by decide)
  refine ⟨?_, ?_, ?_⟩
  · rw [h.1]
    rfl
  · exact h.2.2.2.2.2.2.2 ("S2", ["a", "b", "c", "d"], 4) (by decide)
  · rfl

/-! ### Port accounting (`get_all_ports_in_use`, lines 199–208, and
`check_port_conflicts`, lines 211–233) -/

/-- `StateManager.get_all_ports_in_use`: the union set of the ports of all
verified records, returned as Python's `sorted(list(ports))` — ascending and
duplicate-free — together with the document left on disk and the write
flag of the underlying `get_active_stacks` pass. -/
def get_all_ports_in_use (cfg : Config) (doc : StateDoc) (running : String → Bool)
    (now : String) : List Nat × StateDoc × Bool :=
  let res := get_active_stacks cfg doc running now
  (((res.1.map (fun p => p.2.ports)).flatten.dedup).insertionSort (fun a b => a ≤ b),
   res.2.1, res.2.2)

/-- `StateManager.check_port_conflicts`.  `catalog_ports` models
`StackConfig.get_stack_ports`; `none` is the `except Exception` branch that
returns `[]` at once.  `get_stack_info` re-reads the state file after
`get_all_ports_in_use` has possibly pruned it, hence the lookup in the
returned document. -/
def check_port_conflicts (cfg : Config) (catalog_ports : String → Option (List Nat))
    (doc : StateDoc) (running : String → Bool) (now : String) (stack_name : String) :
    List Nat × StateDoc :=
  match catalog_ports stack_name with
  | none => ([], doc)
  | some needed_ports =>
    let res := get_all_ports_in_use cfg doc running now
    let conflicts := needed_ports.filter (fun port => res.1.contains port)
    let conflicts2 :=
      match dictLookup res.2.1.active_stacks stack_name with
      | some stack_info => conflicts.filter (fun port => !stack_info.ports.contains port)
      | none => conflicts
    (conflicts2, res.2.1)

/-- Modelled from the spec: `checkPortConflicts(stackId) ->
list<{port, owningStackId}>` — "computes the union of ports claimed by all
*other* currently-verified active records, intersects with the candidate
stack's declared ports, and excludes ports already claimed by the *same*
stack id", each conflict paired with the id of the owning active stack. -/
def check_port_conflicts_spec (cfg : Config)
    (catalog_ports : String → Option (List Nat)) (doc : StateDoc)
    (running : String → Bool) (now : String) (stack_name : String) :
    List (Nat × String) :=
  match catalog_ports stack_name with
  | none => []
  | some needed_ports =>
    let verified := (get_active_stacks cfg doc running now).1
    let own : List Nat :=
      match dictLookup verified stack_name with
      | some r => r.ports
      | none => []
    needed_ports.filterMap (fun port =>
      if own.contains port then none
      else
        match verified.find?
            (fun q => decide (q.1 ≠ stack_name) && q.2.ports.contains port) with
        | some q => some (port, q.1)
        | none => none)

theorem get_all_ports_in_use_doc (cfg : Config) (doc : StateDoc)
    (running : String → Bool) (now : String) :
    (get_all_ports_in_use cfg doc running now).2.1 =
      (get_active_stacks cfg doc running now).2.1 := rfl

theorem mem_get_all_ports_in_use (cfg : Config) (doc : StateDoc)
    (running : String → Bool) (now : String) (port : Nat) :
    port ∈ (get_all_ports_in_use cfg doc running now).1 ↔
      ∃ q ∈ (get_active_stacks cfg doc running now).1, port ∈ q.2.ports := by
  simp only [get_all_ports_in_use, List.mem_insertionSort, List.mem_dedup,
    List.mem_flatten, List.mem_map, Prod.exists]
  constructor
  · rintro ⟨l, ⟨a, b, hab, rfl⟩, hp⟩
    exact ⟨a, b, hab, hp⟩
  · rintro ⟨a, b, hab, hp⟩
    exact ⟨b.ports, ⟨a, b, hab, rfl⟩, hp⟩

theorem dictLookup_eq_none_iff {α : Type} (l : List (String × α)) (k : String) :
    dictLookup l k = none ↔ ∀ p ∈ l, p.1 ≠ k := by
  induction l with
  | nil => simp [dictLookup]
  | cons a t ih =>
    by_cases ha : a.1 = k
    · simp [dictLookup, ha]
    · simp [dictLookup, ha, ih]

theorem dictLookup_of_mem_nodup {α : Type} (l : List (String × α)) (q : String × α)
    (hnd : (l.map Prod.fst).Nodup) (hq : q ∈ l) :
    dictLookup l q.1 = some q.2 := by
  induction l with
  | nil => simp at hq
  | cons a t ih =>
    rcases List.mem_cons.mp hq with rfl | hq'
    · simp [dictLookup]
    · rw [List.map_cons] at hnd
      have hnotin := (List.nodup_cons.mp hnd).1
      have hndt := (List.nodup_cons.mp hnd).2
      have ha : a.1 ≠ q.1 := by
        intro he
        exact hnotin (he ▸ List.mem_map_of_mem Prod.fst hq')
      simp [dictLookup, ha, ih hndt hq']

theorem nodup_keys_filter {α : Type} (l : List (String × α))
    (pred : String × α → Bool) (hnd : (l.map Prod.fst).Nodup) :
    ((l.filter pred).map Prod.fst).Nodup :=
  List.Nodup.sublist ((l.filter_sublist).map Prod.fst) hnd

/-- An active record claiming the given ports, with one running container. -/
def recPorts (ports : List Nat) : StackRecord :=
  { started_at := "t0", explicitly_started := some true, services := ["svc"]
    access_url := "http://localhost", monitoring_urls := [], ports := ports
    min_memory := "2GB", features := []
    containers := [("customer-dashboard-svc", "running")] }

/-- Stack `A` active with ports 80 and 3306. -/
def docPortA : StateDoc :=
  { version := "1.0", last_updated := "t0"
    active_stacks := [("A", recPorts [80, 3306])]
    metadata := { project_root := "/app", docker_compose_project := "customer-dashboard" } }

/-- The same state with the owning stack named `C` instead of `A`. -/
def docPortC : StateDoc :=
  { version := "1.0", last_updated := "t0"
    active_stacks := [("C", recPorts [80, 3306])]
    metadata := { project_root := "/app", docker_compose_project := "customer-dashboard" } }

/-- Declared ports of the example stacks (`StackConfig.get_stack_ports`). -/
def portsCatalog : String → Option (List Nat) := fun s =>
  if s = "B" then some [3306, 6379]
  else if s = "A" then some [80, 3306]
  else none

/-- C5 counterexample: the code returns bare port numbers carrying no owning
stack id — two states that differ only in the owner's id produce identical
outputs while the spec's owner-paired results differ — so the claim that
each conflicting port is returned paired with the id of the owning active
stack fails on the code. -/
theorem C5_counterexample :
    (check_port_conflicts cfg0 portsCatalog docPortA (fun _ => true) "t1" "B").1 =
      [3306] ∧
    (check_port_conflicts cfg0 portsCatalog docPortC (fun _ => true) "t1" "B").1 =
      [3306] ∧
    check_port_conflicts_spec cfg0 portsCatalog docPortA (fun _ => true) "t1" "B" =
      [(3306, "A")] ∧
    check_port_conflicts_spec cfg0 portsCatalog docPortC (fun _ => true) "t1" "B" =
      [(3306, "C")] ∧
    ([(3306, "A")] : List (Nat × String)) ≠ [(3306, "C")] :=
  ⟨rfl, rfl, rfl, rfl, by decide⟩

/-- C5 (amended): for a tracked state with distinct stack ids, the ports
returned by `check_port_conflicts` (without owner ids) are exactly the
candidate's declared ports that are claimed by a currently-verified record of
another stack, minus any port claimed by the candidate's own surviving
record. -/
theorem C5_conflicts_characterization (cfg : Config)
    (catalog_ports : String → Option (List Nat)) (doc : StateDoc)
    (running : String → Bool) (now : String) (stack_name : String)
    (needed : List Nat) (hneed : catalog_ports stack_name = some needed)
    (hnd : (doc.active_stacks.map Prod.fst).Nodup) :
    ∀ port,
      port ∈ (check_port_conflicts cfg catalog_ports doc running now stack_name).1 ↔
        port ∈ needed ∧
        (∃ q ∈ (get_active_stacks cfg doc running now).1,
            q.1 ≠ stack_name ∧ port ∈ q.2.ports) ∧
        (∀ r, dictLookup (get_active_stacks cfg doc running now).1 stack_name = some r →
            port ∉ r.ports) := by
  intro port
  have hact : (get_active_stacks cfg doc running now).2.1.active_stacks =
      (get_active_stacks cfg doc running now).1 := by
    rw [get_active_stacks_active, get_active_stacks_fst]
  have hndV : ((get_active_stacks cfg doc running now).1.map Prod.fst).Nodup := by
    rw [get_active_stacks_fst]
    exact nodup_keys_filter _ _ hnd
  simp only [check_port_conflicts, hneed]
  rw [get_all_ports_in_use_doc, hact]
  cases hlook : dictLookup (get_active_stacks cfg doc running now).1 stack_name with
  | none =>
    simp only [List.mem_filter]
    have hno : ∀ q ∈ (get_active_stacks cfg doc running now).1, q.1 ≠ stack_name :=
      (dictLookup_eq_none_iff _ _).mp hlook
    constructor
    · rintro ⟨hpn, hpc⟩
      have hused : port ∈ (get_all_ports_in_use cfg doc running now).1 := by
        simpa using hpc
      rcases (mem_get_all_ports_in_use cfg doc running now port).mp hused with
        ⟨q, hqV, hqp⟩
      exact ⟨hpn, ⟨q, hqV, hno q hqV, hqp⟩, fun r hr => Option.noConfusion hr⟩
    · rintro ⟨hpn, ⟨q, hqV, _, hqp⟩, _⟩
      refine ⟨hpn, ?_⟩
      have hused : port ∈ (get_all_ports_in_use cfg doc running now).1 :=
        (mem_get_all_ports_in_use cfg doc running now port).mpr ⟨q, hqV, hqp⟩
      simpa using hused
  | some r =>
    simp only [List.mem_filter]
    constructor
    · rintro ⟨⟨hpn, hpc⟩, hnotr⟩
      have hused : port ∈ (get_all_ports_in_use cfg doc running now).1 := by
        simpa using hpc
      rcases (mem_get_all_ports_in_use cfg doc running now port).mp hused with
        ⟨q, hqV, hqp⟩
      have hpr : port ∉ r.ports := by simpa using hnotr
      have hqne : q.1 ≠ stack_name := by
        intro he
        have hq2 := dictLookup_of_mem_nodup _ q hndV hqV
        rw [he, hlook] at hq2
        have hqr : r = q.2 := by injection hq2
        exact hpr (hqr ▸ hqp)
      refine ⟨hpn, ⟨q, hqV, hqne, hqp⟩, ?_⟩
      intro r' hr'
      have : r = r' := by injection hr'
      exact this ▸ hpr
    · rintro ⟨hpn, ⟨q, hqV, hqne, hqp⟩, hall⟩
      have hpr : port ∉ r.ports := hall r rfl
      refine ⟨⟨hpn, ?_⟩, by simpa using hpr⟩
      have hused : port ∈ (get_all_ports_in_use cfg doc running now).1 :=
        (mem_get_all_ports_in_use cfg doc running now port).mpr ⟨q, hqV, hqp⟩
      simpa using hused

/-- Witness for C5: the characterization at the spec's example — stack `A`
active with ports `{80, 3306}`, candidate `B` declaring `{3306, 6379}` — at
port 3306, together with the self-exclusion example: checking `A` itself
reports no conflict for its own ports. -/
theorem C5_witness :
    (3306 ∈ (check_port_conflicts cfg0 portsCatalog docPortA
        (fun _ => true) "t1" "B").1 ↔
      3306 ∈ [3306, 6379] ∧
      (∃ q ∈ (get_active_stacks cfg0 docPortA (fun _ => true) "t1").1,
          q.1 ≠ "B" ∧ 3306 ∈ q.2.ports) ∧
      (∀ r, dictLookup (get_active_stacks cfg0 docPortA (fun _ => true) "t1").1 "B" =
          some r → 3306 ∉ r.ports)) ∧
    (check_port_conflicts cfg0 portsCatalog docPortA (fun _ => true) "t1" "A").1 = [] :=
  ⟨C5_conflicts_characterization cfg0 portsCatalog docPortA (fun _ => true) "t1" "B"
    [3306, 6379] (by decide) (by decide) 3306, rfl⟩

end CustomerDashboard
